import Mathlib

/-!
Shallow embedding of the live-reload manager of `go-local-server`
(`internal/livereload/manager.go`) and proofs about it.

Go strings are modelled as `List Char` (ASCII contents throughout this
code base); Go byte indices therefore coincide with character indices.
-/

namespace LiveReload

/-- Go strings, modelled as lists of characters. -/
abbrev GoStr := List Char

/-- `strings.ToLower` (ASCII case, which is all this repository uses). -/
def toLowerStr (s : GoStr) : GoStr := s.map Char.toLower

/-- All indices `i` with `pat` occurring in `s` at position `i`
(Go substring search positions, including `s.length` for the empty pattern). -/
def occurrences (s pat : GoStr) : List Nat :=
  (List.range (s.length + 1)).filter (fun i => pat.isPrefixOf (s.drop i))

/-- `strings.Contains s pat`. -/
def containsSub (s pat : GoStr) : Bool := !(occurrences s pat).isEmpty

/-- `strings.LastIndex s pat`: index of the last occurrence, `-1` if none. -/
def lastIndex (s pat : GoStr) : Int :=
  (occurrences s pat).foldl (fun (_ : Int) (i : Nat) => (i : Int)) (-1)

/-- `strings.HasSuffix s pat`. -/
def hasSuffix (s pat : GoStr) : Bool := pat.isSuffixOf s

/-- The fixed ignore list of `isIgnoredPath` in `manager.go`. -/
def ignoredFragments : List GoStr :=
  ["/.git/".toList, "/node_modules/".toList, "/vendor/".toList, "/.idea/".toList,
   "/.vscode/".toList, "/storage/".toList, "/dist/".toList, "/bin/".toList]

/-- `isIgnoredPath` from `manager.go`: lowercase the path and test each
fragment with `strings.Contains`. -/
def isIgnoredPath (path : GoStr) : Bool :=
  ignoredFragments.any (fun ig => containsSub (toLowerStr path) ig)

section StringLemmas

theorem mem_occurrences {s pat : GoStr} {i : Nat} :
    i ∈ occurrences s pat ↔ i ≤ s.length ∧ pat.isPrefixOf (s.drop i) := by
  simp [occurrences, List.mem_filter, List.mem_range, Nat.lt_succ_iff]

theorem containsSub_iff_infix {s pat : GoStr} :
    containsSub s pat = true ↔ pat <:+: s := by
  constructor
  · intro h
    have hne : occurrences s pat ≠ [] := by
      simpa [containsSub, List.isEmpty_iff] using h
    obtain ⟨i, hi⟩ := List.exists_mem_of_ne_nil _ hne
    obtain ⟨hle, hpre⟩ := mem_occurrences.mp hi
    have hp : pat <+: s.drop i := List.isPrefixOf_iff_prefix.mp hpre
    exact hp.isInfix.trans (List.drop_suffix i s).isInfix
  · intro h
    obtain ⟨t, u, htu⟩ := h
    subst htu
    have hi : t.length ∈ occurrences (t ++ pat ++ u) pat := by
      refine mem_occurrences.mpr ⟨?_, ?_⟩
      · simp
      · have hd : (t ++ pat ++ u).drop t.length = pat ++ u := by
          rw [List.append_assoc]
          exact List.drop_left t (pat ++ u)
        rw [hd]
        exact List.isPrefixOf_iff_prefix.mpr ⟨u, rfl⟩
    have hne : occurrences (t ++ pat ++ u) pat ≠ [] := List.ne_nil_of_mem hi
    simpa [containsSub, List.isEmpty_iff] using hne

theorem foldl_pick_last (l : List Nat) (a : Int) :
    l.foldl (fun (_ : Int) (i : Nat) => (i : Int)) a
      = (l.getLast?.map (fun (n : Nat) => (n : Int))).getD a := by
  induction l generalizing a with
  | nil => rfl
  | cons x xs ih =>
    rw [List.foldl_cons, ih]
    cases xs with
    | nil => rfl
    | cons y ys =>
      obtain ⟨z, hz⟩ : ∃ z, (y :: ys).getLast? = some z :=
        ⟨_, List.getLast?_eq_getLast _ (by simp)⟩
      simp [List.getLast?_cons_cons, hz]

theorem lastIndex_of_not_contains {s pat : GoStr} (h : containsSub s pat = false) :
    lastIndex s pat = -1 := by
  have : occurrences s pat = [] := by
    simpa [containsSub, List.isEmpty_iff] using h
  simp [lastIndex, this]

theorem lastIndex_spec {s pat : GoStr} (h : containsSub s pat = true) :
    0 ≤ lastIndex s pat ∧ (lastIndex s pat).toNat ≤ s.length ∧
      pat.isPrefixOf (s.drop (lastIndex s pat).toNat) := by
  have hne : occurrences s pat ≠ [] := by
    simpa [containsSub, List.isEmpty_iff] using h
  set x := (occurrences s pat).getLast hne with hx
  have hmem : x ∈ occurrences s pat := List.getLast_mem hne
  have hsome : (occurrences s pat).getLast? = some x := List.getLast?_eq_getLast _ hne
  have hLI : lastIndex s pat = (x : Int) := by
    rw [lastIndex, foldl_pick_last, hsome]; rfl
  obtain ⟨hle, hpre⟩ := mem_occurrences.mp hmem
  refine ⟨by rw [hLI]; exact Int.ofNat_nonneg x, ?_, ?_⟩
  · rw [hLI]; simpa using hle
  · rw [hLI]; simpa using hpre

end StringLemmas

/-! ### Entry-file injection (`ClientScript`, `injectIntoHTML`, `TryInjectScript`) -/

/-- `Manager.EndpointURL`: `fmt.Sprintf("http://127.0.0.1:%d/events?project=%s", port, id)`. -/
def endpointURL (port : Nat) (projectID : GoStr) : GoStr :=
  ("http://127.0.0.1:" ++ Nat.repr port ++ "/events?project=").toList ++ projectID

/-- `Manager.ClientScript`: the inline SSE client snippet, byte-for-byte
the Go raw string with `%s` replaced by the endpoint URL. -/
def clientScript (port : Nat) (projectID : GoStr) : GoStr :=
  "<script>\n(function()\x7b\n  try \x7b\n    var es = new EventSource(\x27".toList
    ++ endpointURL port projectID
    ++ "\x27);\n    es.onmessage = function()\x7b location.reload(); \x7d;\n    es.onerror = function()\x7b\x7d;\n  \x7d catch (e) \x7b\x7d\n\x7d)();\n</script>".toList

/-- The fixed marker literal of `TryInjectScript`. -/
def liveReloadMarker : GoStr := "GoLocal LiveReload".toList

/-- `fmt.Sprintf("\n<!-- %s -->\n%s\n", marker, script)` from `injectIntoHTML`. -/
def injectBlock (script marker : GoStr) : GoStr :=
  "\n<!-- ".toList ++ marker ++ " -->\n".toList ++ script ++ "\n".toList

/-- `fmt.Sprintf("\n\n/* %s */\n?>\n", marker)`: the PHP-mode close block. -/
def phpCloseBlock (marker : GoStr) : GoStr :=
  "\n\n/* ".toList ++ marker ++ " */\n?>\n".toList

/-- Helper for `filepath.Ext`: scan the reversed path for the final dot of the
final path element, accumulating the suffix seen so far. -/
def extFromRev : GoStr → GoStr → GoStr
  | [], _ => []
  | c :: rest, acc =>
    if c = '/' then [] else if c = '.' then c :: acc else extFromRev rest (c :: acc)

/-- `filepath.Ext` (unix separator): suffix from the final dot in the final
element, empty if none. -/
def filepathExt (p : GoStr) : GoStr := extFromRev p.reverse []

/-- `strings.EqualFold` restricted to ASCII (all uses here compare to `".php"`). -/
def equalFold (a b : GoStr) : Bool := toLowerStr a = toLowerStr b

/-- The ASCII part of Go `unicode.IsSpace` (`strings.TrimSpace` cutset). -/
def isSpaceChar (c : Char) : Bool :=
  c = ' ' || c = '\t' || c = '\n' || c = '\x0b' || c = '\x0c' || c = '\r'

/-- `strings.TrimSpace`. -/
def trimSpace (s : GoStr) : GoStr :=
  ((s.dropWhile isSpaceChar).reverse.dropWhile isSpaceChar).reverse

/-- `injectIntoHTML` from `manager.go`: returns the updated content and whether
the file was applicable. -/
def injectIntoHTML (filename src script marker : GoStr) : GoStr × Bool :=
  let block := injectBlock script marker
  let lower := toLowerStr src
  let idx := lastIndex lower "</body>".toList
  if 0 ≤ idx then
    (src.take idx.toNat ++ block ++ src.drop idx.toNat, true)
  else if containsSub lower "<html".toList || containsSub lower "<!doctype".toList
      || containsSub lower "<body".toList then
    (src ++ block, true)
  else if equalFold (filepathExt filename) ".php".toList then
    let trimmed := trimSpace src
    let lastClose := lastIndex trimmed "?>".toList
    let lastOpen := lastIndex trimmed "<?".toList
    if lastClose < lastOpen then
      (src ++ phpCloseBlock marker ++ script ++ "\n".toList, true)
    else
      (src ++ "\n".toList ++ script ++ "\n".toList, true)
  else (src, false)

/-- One candidate step of `TryInjectScript` at the content level: if the file
already contains the marker the function returns (content unchanged, nothing
written); otherwise `injectIntoHTML` decides. The `Bool` records whether the
file was (or would be) rewritten. -/
def injectOnce (filename src script marker : GoStr) : GoStr × Bool :=
  if containsSub src marker then (src, false)
  else injectIntoHTML filename src script marker

/-- The candidate loop of `TryInjectScript` over the readable candidates,
each given as (filename, content): a candidate already containing the marker
stops the whole loop with no write; an applicable candidate is rewritten and
returned; an inapplicable one is skipped in favour of the next. -/
def tryInjectList (script marker : GoStr) : List (GoStr × GoStr) → Option (GoStr × GoStr)
  | [] => none
  | (f, data) :: rest =>
    if containsSub data marker then none
    else
      let r := injectIntoHTML f data script marker
      if r.2 then some (f, r.1) else tryInjectList script marker rest

/-! ### Filesystem events and the watch-loop event filter -/

/-- `fsnotify.Create`. -/
def opCreate : Nat := 1
/-- `fsnotify.Write`. -/
def opWrite : Nat := 2
/-- `fsnotify.Remove`. -/
def opRemove : Nat := 4
/-- `fsnotify.Rename`. -/
def opRename : Nat := 8
/-- `fsnotify.Chmod`. -/
def opChmod : Nat := 16

/-- The mask `fsnotify.Write|fsnotify.Create|fsnotify.Remove|fsnotify.Rename`
tested in `watchLoop`. -/
def significantOps : Nat := opWrite ||| opCreate ||| opRemove ||| opRename

/-- One fsnotify event as seen by `watchLoop`: a path and an op bitmask. -/
structure FsEvent where
  name : GoStr
  op : Nat
  deriving DecidableEq

/-- The decision `watchLoop` makes for one received event: whether `debounced()`
is invoked (re-arming the timer). The directory-watch-add side effect for
create events precedes this test but does not influence it. -/
def watchStep (ev : FsEvent) : Bool :=
  if isIgnoredPath ev.name then false
  else decide (ev.op &&& significantOps ≠ 0)

/-! ### Debounce timing (`debounced` in `watchLoop`)

`debounced()` stops any pending 250 ms timer and re-arms it; the timer body is
the broadcast trigger. We model a run of the loop over a strictly increasing
list of event arrival times (all of them qualifying events): `processEvents
pending ts` returns the times at which the trigger fires, where `pending` is
the deadline of an armed, not-yet-fired timer. A pending timer whose deadline
precedes the next event fires then; otherwise the event's re-arm stops it
(`time.Timer.Stop`) and replaces it with a new deadline 250 ms after the
event. A timer still pending after the last event fires at its deadline. -/

/-- The fixed 250 ms quiet window of `debounced`. -/
def quietWindow : Nat := 250

/-- Trigger fire times for qualifying events at the given (increasing) times. -/
def processEvents : Option Nat → List Nat → List Nat
  | some d, [] => [d]
  | none, [] => []
  | some d, t :: rest =>
    if d < t then d :: processEvents (some (t + quietWindow)) rest
    else processEvents (some (t + quietWindow)) rest
  | none, t :: rest => processEvents (some (t + quietWindow)) rest

/-! ### Channels, project state, manager state -/

/-- Capacity of every client signal channel (`make(chan struct{}, 10)`). -/
def chanCap : Nat := 10

/-- A buffered Go channel of zero-payload signals: only the number of queued
signals matters. -/
structure Chan where
  buffered : Nat
  deriving DecidableEq

/-- The non-blocking `select \x7b case ch <- ...: default: \x7d` send of the
broadcast trigger. -/
def trySend (c : Chan) : Chan :=
  if c.buffered < chanCap then { buffered := c.buffered + 1 } else c

/-- `projectState` from `manager.go`. `hasTimer` models `debounce != nil`
(a timer object exists, pending or fired); `watcherOpen` models a live
`fsnotify.Watcher` handle. Clients are an association list from client id to
channel (insertion order standing in for Go map iteration order). -/
structure ProjectState where
  watcherOpen : Bool
  clients : List (String × Chan)
  hasTimer : Bool
  deriving DecidableEq

/-- `Manager` state: whether the shared HTTP server exists (`srv != nil`) and
the project map as an association list. -/
structure ManagerState where
  srvRunning : Bool
  projects : List (String × ProjectState)
  deriving DecidableEq

/-- Go map read `m.projects[id]`. -/
def lookupProj : List (String × ProjectState) → String → Option ProjectState
  | [], _ => none
  | (k, v) :: rest, id => if k = id then some v else lookupProj rest id

/-- Go map `delete(m.projects, id)`. -/
def eraseProj : List (String × ProjectState) → String → List (String × ProjectState)
  | [], _ => []
  | (k, v) :: rest, id =>
    if k = id then eraseProj rest id else (k, v) :: eraseProj rest id

/-- Go map write `m.projects[id] = st` for an id already present. -/
def updateProj : List (String × ProjectState) → String → ProjectState →
    List (String × ProjectState)
  | [], _, _ => []
  | (k, v) :: rest, id, st =>
    (if k = id then (k, st) else (k, v)) :: updateProj rest id st

/-- Observable side effects of the lifecycle operations, in program order. -/
inductive Action where
  | closeChan (projectID clientID : String)
  | stopTimer (projectID : String)
  | closeWatcher (projectID : String)
  | shutdownServer
  deriving DecidableEq

/-- `Manager.Disable`: read and delete the map entry under the lock; if no
state was present return nil; otherwise close every client channel, stop the
debounce timer if one exists, and close the watcher. Returns the new manager
state and the teardown actions performed. -/
def Disable (s : ManagerState) (projectID : String) : ManagerState × List Action :=
  let st? := lookupProj s.projects projectID
  let s1 : ManagerState := { s with projects := eraseProj s.projects projectID }
  match st? with
  | none => (s1, [])
  | some st =>
    (s1,
      st.clients.map (fun kc => Action.closeChan projectID kc.1)
        ++ (if st.hasTimer then [Action.stopTimer projectID] else [])
        ++ [Action.closeWatcher projectID])

/-- `Manager.Stop`: under the lock, take the server handle and replace the
project map with a fresh empty map; then call `Disable` for each snapshotted
project id; finally shut the server down if one was running. -/
def Stop (s : ManagerState) : ManagerState × List Action :=
  let snapshot := s.projects
  let hadSrv := s.srvRunning
  let s1 : ManagerState := { srvRunning := false, projects := [] }
  let folded := snapshot.foldl
    (fun (acc : ManagerState × List Action) kv =>
      let r := Disable acc.1 kv.1
      (r.1, acc.2 ++ r.2))
    (s1, [])
  (folded.1, folded.2 ++ (if hadSrv then [Action.shutdownServer] else []))

/-- A `Project` record as read by the engine (`p.ID`, `p.Path`). -/
structure Project where
  id : String
  path : GoStr
  deriving DecidableEq

/-- Result of `Manager.Enable` beyond the new state: success or an error,
plus counters for the watchers opened (`fsnotify.NewWatcher`) and recursive
directory walks performed (`addWatchRecursive`). -/
structure EnableOut where
  state : ManagerState
  err : Option String
  watchersOpened : Nat
  walks : Nat
  deriving DecidableEq

/-- `Manager.Enable`: nil check; `Start` (lazily marks the server running);
no-op success if the id is already tracked; otherwise open a watcher, reject
an empty path (closing the watcher again), walk the tree, and register the
fresh state. Watcher creation and the walk are modelled as succeeding (their
failures are propagated resp. swallowed in Go but play no role here). -/
def Enable (s : ManagerState) (p : Option Project) : EnableOut :=
  match p with
  | none => ⟨s, some "project is nil", 0, 0⟩
  | some p =>
    let s1 : ManagerState := { s with srvRunning := true }
    if (lookupProj s1.projects p.id).isSome then
      ⟨s1, none, 0, 0⟩
    else if p.path = [] then
      ⟨s1, some "project path is empty", 1, 0⟩
    else
      ⟨{ s1 with
          projects := (p.id, ⟨true, [], false⟩) :: s1.projects }, none, 1, 1⟩

/-- The timer body `trigger` in `watchLoop`: re-read the project under the
lock; if it is gone do nothing; otherwise non-blocking-send one signal to
every registered client channel. -/
def trigger (s : ManagerState) (projectID : String) : ManagerState :=
  match lookupProj s.projects projectID with
  | none => s
  | some st =>
    { s with
        projects := updateProj s.projects projectID
          { st with clients := st.clients.map (fun kc => (kc.1, trySend kc.2)) } }

/-! ### The `/events` HTTP handler -/

/-- SSE frames written by `handleEvents`: `data: ready\n\n` / `data: reload\n\n`. -/
inductive Frame where
  | ready
  | reload
  deriving DecidableEq

/-- Response of one `/events` request: final status code and the frames
written (in order). -/
structure EventsResponse where
  status : Nat
  frames : List Frame
  deriving DecidableEq

/-- `Manager.handleEvents` as a sequential function of the manager state, the
request method, the `project` query parameter (Go `Query().Get` yields `""`
when absent), whether the response writer supports `http.Flusher`, and the
number of signals received on the connection's channel before it terminates.
The second map lookup performed after registration coincides with the first
in this sequential model. -/
def handleEvents (s : ManagerState) (method : String) (projectParam : String)
    (flusherOK : Bool) (signals : Nat) : EventsResponse :=
  if method = "OPTIONS" then ⟨204, []⟩
  else if method ≠ "GET" then ⟨405, []⟩
  else if projectParam = "" then ⟨400, []⟩
  else
    match lookupProj s.projects projectParam with
    | none => ⟨404, []⟩
    | some _ =>
      if ¬flusherOK then ⟨500, []⟩
      else ⟨200, Frame.ready :: List.replicate signals Frame.reload⟩

/-! ### Association-list lemmas -/

theorem lookupProj_eraseProj (l : List (String × ProjectState)) (id : String) :
    lookupProj (eraseProj l id) id = none := by
  induction l with
  | nil => rfl
  | cons kv rest ih =>
    obtain ⟨k, v⟩ := kv
    by_cases h : k = id <;> simp [eraseProj, lookupProj, h, ih]

theorem eraseProj_of_lookup_none (l : List (String × ProjectState)) (id : String)
    (h : lookupProj l id = none) : eraseProj l id = l := by
  induction l with
  | nil => rfl
  | cons kv rest ih =>
    obtain ⟨k, v⟩ := kv
    by_cases hk : k = id
    · simp [lookupProj, hk] at h
    · simp [eraseProj, hk]
      exact ih (by simpa [lookupProj, hk] using h)

theorem lookupProj_updateProj (l : List (String × ProjectState)) (id : String)
    (st : ProjectState) (h : (lookupProj l id).isSome) :
    lookupProj (updateProj l id st) id = some st := by
  induction l with
  | nil => simp [lookupProj] at h
  | cons kv rest ih =>
    obtain ⟨k, v⟩ := kv
    by_cases hk : k = id
    · subst hk
      show lookupProj ((if k = k then (k, st) else (k, v)) :: updateProj rest k st) k
        = some st
      rw [if_pos rfl]
      simp [lookupProj]
    · have h' : (lookupProj rest id).isSome := by simpa [lookupProj, hk] using h
      show lookupProj ((if k = id then (k, st) else (k, v)) :: updateProj rest id st) id
        = some st
      rw [if_neg hk]
      show (if k = id then some v else lookupProj (updateProj rest id st) id) = some st
      rw [if_neg hk]
      exact ih h'

/-! ### Claims C6, C8, C1 -/

/-- Claim C6: Enable is idempotent per project id: when the id is already
tracked, a second `Enable` returns success, opens no watcher, performs no
directory walk, and leaves the project map (hence the existing project state)
unchanged; only the lazy `Start` flag is (re)asserted. -/
theorem enable_idempotent (s : ManagerState) (p : Project)
    (h : (lookupProj s.projects p.id).isSome) :
    Enable s (some p) = ⟨{ s with srvRunning := true }, none, 0, 0⟩ := by
  simp [Enable, h]

/-- Witness for C6 at a concrete manager state already tracking `p1`. -/
theorem enable_idempotent_witness :
    Enable ⟨true, [("p1", ⟨true, [("c1", ⟨0⟩)], false⟩)]⟩ (some ⟨"p1", "/proj".toList⟩)
      = ⟨⟨true, [("p1", ⟨true, [("c1", ⟨0⟩)], false⟩)]⟩, none, 0, 0⟩ :=
  enable_idempotent ⟨true, [("p1", ⟨true, [("c1", ⟨0⟩)], false⟩)]⟩
    ⟨"p1", "/proj".toList⟩ (by decide)

/-- Claim C8: for a tracked id, `Disable` removes the id from the project map
and performs the full teardown — closes every registered client channel,
stops the debounce timer when one exists, and closes the watcher; for an
unknown or already-disabled id it is a no-op success leaving the state
unchanged. -/
theorem disable_teardown (s : ManagerState) (id : String) :
    (∀ st, lookupProj s.projects id = some st →
      (Disable s id).1.projects = eraseProj s.projects id ∧
      lookupProj (Disable s id).1.projects id = none ∧
      (Disable s id).2 =
        st.clients.map (fun kc => Action.closeChan id kc.1)
          ++ (if st.hasTimer then [Action.stopTimer id] else [])
          ++ [Action.closeWatcher id]) ∧
    (lookupProj s.projects id = none → Disable s id = (s, [])) := by
  constructor
  · intro st hst
    refine ⟨?_, ?_, ?_⟩
    · simp [Disable, hst]
    · simp [Disable, hst, lookupProj_eraseProj]
    · simp [Disable, hst]
  · intro hnone
    simp [Disable, hnone, eraseProj_of_lookup_none s.projects id hnone]

/-- Witness for C8: teardown actions at a concrete tracked project, and the
no-op on an unknown id. -/
theorem disable_teardown_witness :
    (Disable ⟨true, [("p1", ⟨true, [("c1", ⟨3⟩), ("c2", ⟨0⟩)], true⟩)]⟩ "p1").2 =
      [Action.closeChan "p1" "c1", Action.closeChan "p1" "c2",
       Action.stopTimer "p1", Action.closeWatcher "p1"] ∧
    Disable ⟨true, [("p1", ⟨true, [("c1", ⟨3⟩), ("c2", ⟨0⟩)], true⟩)]⟩ "zz"
      = (⟨true, [("p1", ⟨true, [("c1", ⟨3⟩), ("c2", ⟨0⟩)], true⟩)]⟩, []) := by
  constructor
  · have h := (disable_teardown ⟨true, [("p1", ⟨true, [("c1", ⟨3⟩), ("c2", ⟨0⟩)], true⟩)]⟩ "p1").1
      ⟨true, [("c1", ⟨3⟩), ("c2", ⟨0⟩)], true⟩ (by decide)
    rw [h.2.2]
    decide
  · exact (disable_teardown ⟨true, [("p1", ⟨true, [("c1", ⟨3⟩), ("c2", ⟨0⟩)], true⟩)]⟩ "zz").2
      (by decide)

/-- Every `Disable` issued by `Stop` runs after the project map has already
been replaced by a fresh empty map, so it finds no state and tears nothing
down: `Stop`'s only observable action is the server shutdown. -/
theorem stop_actions_eq (s : ManagerState) :
    Stop s = (⟨false, []⟩, if s.srvRunning then [Action.shutdownServer] else []) := by
  have hfold : ∀ (l : List (String × ProjectState)) (acts : List Action),
      l.foldl
        (fun (acc : ManagerState × List Action) kv =>
          let r := Disable acc.1 kv.1
          (r.1, acc.2 ++ r.2))
        (⟨false, []⟩, acts) = (⟨false, []⟩, acts) := by
    intro l
    induction l with
    | nil => intro acts; rfl
    | cons kv rest ih => intro acts; simpa [Disable, lookupProj, eraseProj] using ih acts
  simp [Stop, hfold]

/-- Claim C1 (failing input): a manager tracking project `p1` — with a
registered client channel, an existing debounce timer and an open watcher —
on which `Stop` performs no teardown at all: its action trace is just the
server shutdown, with no channel close, no timer stop and no watcher close,
because `Stop` empties the project map before invoking `Disable` on the
snapshotted ids. -/
theorem stop_skips_teardown :
    Stop ⟨true, [("p1", ⟨true, [("c1", ⟨0⟩)], true⟩)]⟩
      = (⟨false, []⟩, [Action.shutdownServer]) := by
  decide

/-! ### Claims C4, C3, C5, C7 -/

/-- Claim C4: on a broadcast trigger for an enabled project, every registered
client channel is handled independently and without blocking: a channel with
buffer space receives exactly one additional zero-payload signal, a saturated
channel (buffer at capacity 10) is skipped unchanged, and this holds
pointwise for every channel regardless of the state of the others. -/
theorem broadcast_nonblocking (s : ManagerState) (id : String) (st : ProjectState)
    (h : lookupProj s.projects id = some st) :
    ∃ st', lookupProj (trigger s id).projects id = some st' ∧
      st'.clients.length = st.clients.length ∧
      ∀ i (hi : i < st.clients.length) (hi' : i < st'.clients.length),
        (st'.clients.get ⟨i, hi'⟩).1 = (st.clients.get ⟨i, hi⟩).1 ∧
        ((st.clients.get ⟨i, hi⟩).2.buffered < chanCap →
          (st'.clients.get ⟨i, hi'⟩).2.buffered
            = (st.clients.get ⟨i, hi⟩).2.buffered + 1) ∧
        (¬ (st.clients.get ⟨i, hi⟩).2.buffered < chanCap →
          (st'.clients.get ⟨i, hi'⟩).2 = (st.clients.get ⟨i, hi⟩).2) := by
  have hnew : (trigger s id).projects
      = updateProj s.projects id
          { st with clients := st.clients.map (fun kc => (kc.1, trySend kc.2)) } := by
    simp [trigger, h]
  refine ⟨{ st with clients := st.clients.map (fun kc => (kc.1, trySend kc.2)) }, ?_, ?_, ?_⟩
  · rw [hnew]
    exact lookupProj_updateProj _ _ _ (by simp [h])
  · simp
  · intro i hi hi'
    have hget : (st.clients.map (fun kc => (kc.1, trySend kc.2))).get ⟨i, by simpa using hi⟩
        = ((st.clients.get ⟨i, hi⟩).1, trySend (st.clients.get ⟨i, hi⟩).2) := by
      simp [List.getElem_map]
    refine ⟨?_, ?_, ?_⟩
    · show ((st.clients.map (fun kc => (kc.1, trySend kc.2))).get ⟨i, hi'⟩).1 = _
      rw [hget]
    · intro hlt
      show ((st.clients.map (fun kc => (kc.1, trySend kc.2))).get ⟨i, hi'⟩).2.buffered = _
      rw [hget]
      show (trySend (st.clients.get ⟨i, hi⟩).2).buffered = _
      unfold trySend
      rw [if_pos hlt]
    · intro hge
      show ((st.clients.map (fun kc => (kc.1, trySend kc.2))).get ⟨i, hi'⟩).2 = _
      rw [hget]
      show trySend (st.clients.get ⟨i, hi⟩).2 = _
      unfold trySend
      rw [if_neg hge]

/-- Witness for C4: a project with one saturated channel (10 buffered
signals) and one empty channel; the trigger bumps the empty one and leaves
the full one alone. -/
theorem broadcast_nonblocking_witness :
    ∃ st', lookupProj
        (trigger ⟨true, [("p1", ⟨true, [("a", ⟨10⟩), ("b", ⟨0⟩)], false⟩)]⟩ "p1").projects
        "p1" = some st' ∧
      st'.clients.length
        = (⟨true, [("a", ⟨10⟩), ("b", ⟨0⟩)], false⟩ : ProjectState).clients.length ∧
      ∀ i (hi : i < (⟨true, [("a", ⟨10⟩), ("b", ⟨0⟩)], false⟩ : ProjectState).clients.length)
          (hi' : i < st'.clients.length),
        (st'.clients.get ⟨i, hi'⟩).1
          = ((⟨true, [("a", ⟨10⟩), ("b", ⟨0⟩)], false⟩ : ProjectState).clients.get ⟨i, hi⟩).1 ∧
        (((⟨true, [("a", ⟨10⟩), ("b", ⟨0⟩)], false⟩ : ProjectState).clients.get ⟨i, hi⟩).2.buffered < chanCap →
          (st'.clients.get ⟨i, hi'⟩).2.buffered
            = ((⟨true, [("a", ⟨10⟩), ("b", ⟨0⟩)], false⟩ : ProjectState).clients.get ⟨i, hi⟩).2.buffered + 1) ∧
        (¬ ((⟨true, [("a", ⟨10⟩), ("b", ⟨0⟩)], false⟩ : ProjectState).clients.get ⟨i, hi⟩).2.buffered < chanCap →
          (st'.clients.get ⟨i, hi'⟩).2
            = ((⟨true, [("a", ⟨10⟩), ("b", ⟨0⟩)], false⟩ : ProjectState).clients.get ⟨i, hi⟩).2) :=
  broadcast_nonblocking ⟨true, [("p1", ⟨true, [("a", ⟨10⟩), ("b", ⟨0⟩)], false⟩)]⟩ "p1"
    ⟨true, [("a", ⟨10⟩), ("b", ⟨0⟩)], false⟩ (by decide)

/-- Claim C3: a burst of qualifying events in which each event arrives
strictly less than the 250 ms quiet window after the previous one produces
exactly one trigger firing, exactly 250 ms after the last event (hence no
sooner): every earlier pending timer is stopped by the re-arm before its
deadline. -/
theorem debounce_coalescing (ts : List Nat) (hne : ts ≠ [])
    (hchain : ts.Chain' (fun a b => a < b ∧ b < a + quietWindow)) :
    processEvents none ts = [ts.getLast hne + quietWindow] := by
  induction ts with
  | nil => exact absurd rfl hne
  | cons t rest ih =>
    cases rest with
    | nil => rfl
    | cons t2 rest2 =>
      have h12 : t < t2 ∧ t2 < t + quietWindow := (List.chain'_cons.mp hchain).1
      have hch2 := (List.chain'_cons.mp hchain).2
      have hnotlt : ¬ (t + quietWindow < t2) := by omega
      have hstep : processEvents none (t :: t2 :: rest2)
          = processEvents none (t2 :: rest2) := by
        show processEvents (some (t + quietWindow)) (t2 :: rest2)
          = processEvents (some (t2 + quietWindow)) rest2
        simp [processEvents, hnotlt]
      have hlast : (t :: t2 :: rest2).getLast hne = (t2 :: rest2).getLast (by simp) :=
        List.getLast_cons (by simp)
      rw [hstep, ih (by simp) hch2, hlast]

/-- Witness for C3: three events at 0, 100 and 200 ms (gaps of 100 ms < 250 ms)
collapse to a single trigger at 450 ms. -/
theorem debounce_coalescing_witness :
    processEvents none [0, 100, 200] = [450] := by
  have hchain : List.Chain' (fun a b => a < b ∧ b < a + quietWindow) [0, 100, 200] := by
    simp only [quietWindow]
    exact List.chain'_cons.mpr ⟨⟨by omega, by omega⟩,
      List.chain'_cons.mpr ⟨⟨by omega, by omega⟩, List.chain'_singleton _⟩⟩
  have h := debounce_coalescing [0, 100, 200] (by decide) hchain
  simpa using h

/-- Claim C5: the `/events` route answers OPTIONS with 204, any other non-GET
method with 405, a GET without a `project` parameter with 400, a GET naming a
project that is not enabled with 404, a GET whose response writer cannot
stream with 500; a successful GET writes the `ready` frame first, before any
`reload` frame. -/
theorem events_route_contract (s : ManagerState) (param : String) (fl : Bool) (n : Nat) :
    (handleEvents s "OPTIONS" param fl n).status = 204 ∧
    (∀ method : String, method ≠ "OPTIONS" → method ≠ "GET" →
      (handleEvents s method param fl n).status = 405) ∧
    (handleEvents s "GET" "" fl n).status = 400 ∧
    (param ≠ "" → lookupProj s.projects param = none →
      (handleEvents s "GET" param fl n).status = 404) ∧
    (param ≠ "" → (lookupProj s.projects param).isSome →
      (handleEvents s "GET" param false n).status = 500) ∧
    (param ≠ "" → (lookupProj s.projects param).isSome →
      handleEvents s "GET" param true n
        = ⟨200, Frame.ready :: List.replicate n Frame.reload⟩) := by
  refine ⟨?_, ?_, ?_, ?_, ?_, ?_⟩
  · simp [handleEvents]
  · intro method h1 h2
    simp [handleEvents, h1, h2]
  · simp [handleEvents]
  · intro hp hnone
    simp [handleEvents, hp, hnone]
  · intro hp hsome
    obtain ⟨st, hst⟩ := Option.isSome_iff_exists.mp hsome
    simp [handleEvents, hp, hst]
  · intro hp hsome
    obtain ⟨st, hst⟩ := Option.isSome_iff_exists.mp hsome
    simp [handleEvents, hp, hst]

/-- Witness for C5 at a concrete manager state tracking `p1`. -/
theorem events_route_contract_witness :
    (handleEvents ⟨true, [("p1", ⟨true, [], false⟩)]⟩ "OPTIONS" "p1" true 2).status = 204 ∧
    (handleEvents ⟨true, [("p1", ⟨true, [], false⟩)]⟩ "PUT" "p1" true 2).status = 405 ∧
    (handleEvents ⟨true, [("p1", ⟨true, [], false⟩)]⟩ "GET" "" true 2).status = 400 ∧
    (handleEvents ⟨true, [("p1", ⟨true, [], false⟩)]⟩ "GET" "zz" true 2).status = 404 ∧
    (handleEvents ⟨true, [("p1", ⟨true, [], false⟩)]⟩ "GET" "p1" false 2).status = 500 ∧
    handleEvents ⟨true, [("p1", ⟨true, [], false⟩)]⟩ "GET" "p1" true 2
      = ⟨200, [Frame.ready, Frame.reload, Frame.reload]⟩ := by
  have h := events_route_contract ⟨true, [("p1", ⟨true, [], false⟩)]⟩ "p1" true 2
  have h0 := events_route_contract ⟨true, [("p1", ⟨true, [], false⟩)]⟩ "" true 2
  have hzz := events_route_contract ⟨true, [("p1", ⟨true, [], false⟩)]⟩ "zz" true 2
  refine ⟨h.1, h.2.1 "PUT" (by decide) (by decide), h0.2.2.1, ?_, ?_, ?_⟩
  · exact hzz.2.2.2.1 (by decide) (by decide)
  · exact h.2.2.2.2.1 (by decide) (by decide)
  · have := h.2.2.2.2.2 (by decide) (by decide)
    simpa using this

theorem nat_or_eq_zero {a b : Nat} : a ||| b = 0 ↔ a = 0 ∧ b = 0 := by
  constructor
  · intro h
    have ht : ∀ i, a.testBit i = false ∧ b.testBit i = false := by
      intro i
      have hcongr := congrArg (fun x => Nat.testBit x i) h
      simpa [Nat.testBit_or] using hcongr
    exact ⟨Nat.eq_of_testBit_eq (fun i => by simp [(ht i).1]),
      Nat.eq_of_testBit_eq (fun i => by simp [(ht i).2])⟩
  · rintro ⟨rfl, rfl⟩
    rfl

theorem and_mask_ne_zero_iff (op : Nat) :
    op &&& significantOps ≠ 0 ↔
      op &&& opWrite ≠ 0 ∨ op &&& opCreate ≠ 0 ∨ op &&& opRemove ≠ 0 ∨
        op &&& opRename ≠ 0 := by
  have hd : op &&& significantOps
      = ((op &&& opWrite ||| op &&& opCreate) ||| op &&& opRemove) ||| op &&& opRename := by
    rw [significantOps, Nat.and_or_distrib_left, Nat.and_or_distrib_left,
      Nat.and_or_distrib_left]
  rw [hd, ne_eq, nat_or_eq_zero, nat_or_eq_zero, nat_or_eq_zero]
  tauto

/-- Claim C7: a filesystem event re-arms the debounce timer exactly when its
path does not match the ignore policy and its op bitmask includes at least
one of write, create, remove, rename; ignored paths and other kinds (such as
chmod-only events) never re-arm it. -/
theorem event_filter (ev : FsEvent) :
    watchStep ev = true ↔
      isIgnoredPath ev.name = false ∧
        (ev.op &&& opWrite ≠ 0 ∨ ev.op &&& opCreate ≠ 0 ∨ ev.op &&& opRemove ≠ 0 ∨
          ev.op &&& opRename ≠ 0) := by
  unfold watchStep
  by_cases hig : isIgnoredPath ev.name = true
  · simp [hig]
  · have hig' : isIgnoredPath ev.name = false := by
      simpa using hig
    simp [hig', and_mask_ne_zero_iff]

/-! ### Claims C9, C10, C2 -/

/-- Claim C9: `injectIntoHTML` follows the priority ladder: (a) a closing body
tag present in the lowercased content ⇒ the block goes immediately before its
last occurrence; (b) else an html/doctype/body marker ⇒ block appended at the
end; (c) else a `.php` file whose trimmed content has its last `<?` after its
last `?>` ⇒ a marker comment plus closing `?>` is emitted before the script;
(d) a `.php` file otherwise ⇒ the script is simply appended; (e) otherwise
the content is returned unchanged and reported not applicable, and the
candidate loop of `TryInjectScript` then proceeds to the next candidate. -/
theorem inject_ladder (filename src script marker : GoStr) :
    (containsSub (toLowerStr src) "</body>".toList = true →
      0 ≤ lastIndex (toLowerStr src) "</body>".toList ∧
      "</body>".toList.isPrefixOf
        ((toLowerStr src).drop (lastIndex (toLowerStr src) "</body>".toList).toNat) ∧
      injectIntoHTML filename src script marker
        = (src.take (lastIndex (toLowerStr src) "</body>".toList).toNat
            ++ injectBlock script marker
            ++ src.drop (lastIndex (toLowerStr src) "</body>".toList).toNat, true)) ∧
    (containsSub (toLowerStr src) "</body>".toList = false →
      (containsSub (toLowerStr src) "<html".toList
        || containsSub (toLowerStr src) "<!doctype".toList
        || containsSub (toLowerStr src) "<body".toList) = true →
      injectIntoHTML filename src script marker
        = (src ++ injectBlock script marker, true)) ∧
    (containsSub (toLowerStr src) "</body>".toList = false →
      (containsSub (toLowerStr src) "<html".toList
        || containsSub (toLowerStr src) "<!doctype".toList
        || containsSub (toLowerStr src) "<body".toList) = false →
      equalFold (filepathExt filename) ".php".toList = true →
      lastIndex (trimSpace src) "?>".toList < lastIndex (trimSpace src) "<?".toList →
      injectIntoHTML filename src script marker
        = (src ++ phpCloseBlock marker ++ script ++ "\n".toList, true)) ∧
    (containsSub (toLowerStr src) "</body>".toList = false →
      (containsSub (toLowerStr src) "<html".toList
        || containsSub (toLowerStr src) "<!doctype".toList
        || containsSub (toLowerStr src) "<body".toList) = false →
      equalFold (filepathExt filename) ".php".toList = true →
      ¬ lastIndex (trimSpace src) "?>".toList < lastIndex (trimSpace src) "<?".toList →
      injectIntoHTML filename src script marker
        = (src ++ "\n".toList ++ script ++ "\n".toList, true)) ∧
    (containsSub (toLowerStr src) "</body>".toList = false →
      (containsSub (toLowerStr src) "<html".toList
        || containsSub (toLowerStr src) "<!doctype".toList
        || containsSub (toLowerStr src) "<body".toList) = false →
      equalFold (filepathExt filename) ".php".toList = false →
      injectIntoHTML filename src script marker = (src, false)) ∧
    (∀ rest : List (GoStr × GoStr), containsSub src marker = false →
      (injectIntoHTML filename src script marker).2 = false →
      tryInjectList script marker ((filename, src) :: rest)
        = tryInjectList script marker rest) := by
  refine ⟨?_, ?_, ?_, ?_, ?_, ?_⟩
  · intro h
    obtain ⟨h0, hle, hpre⟩ := lastIndex_spec h
    refine ⟨h0, hpre, ?_⟩
    simp only [injectIntoHTML]
    rw [if_pos h0]
  · intro h1 h2
    simp only [injectIntoHTML]
    rw [lastIndex_of_not_contains h1, if_neg (by decide), h2, if_pos rfl]
  · intro h1 h2 h3 h4
    simp only [injectIntoHTML]
    rw [lastIndex_of_not_contains h1, if_neg (by decide), h2,
      if_neg Bool.false_ne_true, h3, if_pos rfl, if_pos h4]
  · intro h1 h2 h3 h4
    simp only [injectIntoHTML]
    rw [lastIndex_of_not_contains h1, if_neg (by decide), h2,
      if_neg Bool.false_ne_true, h3, if_pos rfl, if_neg h4]
  · intro h1 h2 h3
    simp only [injectIntoHTML]
    rw [lastIndex_of_not_contains h1, if_neg (by decide), h2,
      if_neg Bool.false_ne_true, h3, if_neg Bool.false_ne_true]
  · intro rest hm hr
    simp only [tryInjectList]
    rw [hm, if_neg Bool.false_ne_true, hr, if_neg Bool.false_ne_true]

/-- Witness for C9: one concrete input per rung of the ladder — inserting
before a (case-insensitive) closing body tag, closing an unterminated PHP
block, appending to a terminated PHP file, and skipping a non-HTML non-PHP
candidate in favour of the next (here: none left). -/
theorem inject_ladder_witness :
    injectIntoHTML "index.html".toList "<a></BODY>".toList "S".toList "M".toList
      = ("<a></BODY>".toList.take 3 ++ injectBlock "S".toList "M".toList
          ++ "<a></BODY>".toList.drop 3, true) ∧
    injectIntoHTML "index.php".toList "<?php foo();".toList "S".toList "M".toList
      = ("<?php foo();".toList ++ phpCloseBlock "M".toList ++ "S".toList
          ++ "\n".toList, true) ∧
    injectIntoHTML "index.php".toList "<?php foo(); ?>".toList "S".toList "M".toList
      = ("<?php foo(); ?>".toList ++ "\n".toList ++ "S".toList ++ "\n".toList, true) ∧
    injectIntoHTML "app.css".toList "x".toList "S".toList "M".toList
      = ("x".toList, false) ∧
    tryInjectList "S".toList "M".toList [("app.css".toList, "x".toList)] = none := by
  have ha := (inject_ladder "index.html".toList "<a></BODY>".toList "S".toList
    "M".toList).1 (by decide)
  have hc := (inject_ladder "index.php".toList "<?php foo();".toList "S".toList
    "M".toList).2.2.1 (by decide) (by decide) (by decide) (by decide)
  have hd := (inject_ladder "index.php".toList "<?php foo(); ?>".toList "S".toList
    "M".toList).2.2.2.1 (by decide) (by decide) (by decide) (by decide)
  have he := (inject_ladder "app.css".toList "x".toList "S".toList
    "M".toList).2.2.2.2.1 (by decide) (by decide) (by decide)
  have hf := (inject_ladder "app.css".toList "x".toList "S".toList
    "M".toList).2.2.2.2.2 [] (by decide) (by rw [he])
  refine ⟨?_, hc, hd, he, ?_⟩
  · rw [ha.2.2]
    decide
  · rw [hf]
    rfl

/-- Counterexample to claim C10 as stated: the path
`/a/node_modules/b/node_modules` ends in `node_modules` with no trailing
separator, yet `isIgnoredPath` returns `true` for it (it contains the
delimited fragment `/node_modules/` further left). -/
theorem ignored_dir_itself_cex :
    hasSuffix (toLowerStr "/a/node_modules/b/node_modules".toList)
        "node_modules".toList = true ∧
    isIgnoredPath "/a/node_modules/b/node_modules".toList = true := by
  decide

/-- Claim C10 (amended): `isIgnoredPath` is true exactly when the lowercased
path contains one of the eight separator-delimited fragments; consequently a
path that ends in `node_modules` with no trailing separator and contains none
of the eight fragments is not ignored, and an event on it with a qualifying
op re-arms the debounce timer. -/
theorem ignored_path_spec (p : GoStr) (op : Nat) :
    (isIgnoredPath p = true ↔ ∃ ig ∈ ignoredFragments, ig <:+: toLowerStr p) ∧
    (hasSuffix (toLowerStr p) "node_modules".toList = true →
      (∀ ig ∈ ignoredFragments, ¬ ig <:+: toLowerStr p) →
      op &&& significantOps ≠ 0 →
      isIgnoredPath p = false ∧ watchStep ⟨p, op⟩ = true) := by
  have hiff : isIgnoredPath p = true ↔ ∃ ig ∈ ignoredFragments, ig <:+: toLowerStr p := by
    simp [isIgnoredPath, List.any_eq_true, containsSub_iff_infix]
  refine ⟨hiff, ?_⟩
  intro _ hnone hop
  have hfalse : isIgnoredPath p = false := by
    rw [Bool.eq_false_iff]
    intro htrue
    obtain ⟨ig, hmem, hinf⟩ := hiff.mp htrue
    exact hnone ig hmem hinf
  refine ⟨hfalse, ?_⟩
  unfold watchStep
  simp [hfalse, hop]

/-- Witness for C10 (amended) at the path `/proj/node_modules` and a create
event. -/
theorem ignored_path_spec_witness :
    isIgnoredPath "/proj/node_modules".toList = false ∧
    watchStep ⟨"/proj/node_modules".toList, opCreate⟩ = true :=
  (ignored_path_spec "/proj/node_modules".toList opCreate).2
    (by decide) (by decide) (by decide)

set_option maxRecDepth 100000 in
set_option maxHeartbeats 4000000 in
/-- Claim C2 (failing input): injecting into the properly terminated PHP entry
file `index.php` with content `<?php echo 1; ?>` — using the program's actual
client script (port 35730, project `p1`) and marker — succeeds, but the
produced content does not contain the marker, so a second injection is not a
no-op: it appends the snippet again instead of detecting the marker. -/
theorem inject_not_idempotent :
    (injectOnce "index.php".toList "<?php echo 1; ?>".toList
      (clientScript 35730 "p1".toList) liveReloadMarker).2 = true ∧
    containsSub (injectOnce "index.php".toList "<?php echo 1; ?>".toList
      (clientScript 35730 "p1".toList) liveReloadMarker).1 liveReloadMarker = false ∧
    (injectOnce "index.php".toList
      (injectOnce "index.php".toList "<?php echo 1; ?>".toList
        (clientScript 35730 "p1".toList) liveReloadMarker).1
      (clientScript 35730 "p1".toList) liveReloadMarker).1
      ≠ (injectOnce "index.php".toList "<?php echo 1; ?>".toList
        (clientScript 35730 "p1".toList) liveReloadMarker).1 := by
  refine ⟨by decide, by decide, by decide⟩

end LiveReload
